import Mathlib

/-!
Shallow embedding of the DMR user-data framing module (`data.go`):
per-block CRC-9 and whole-fragment CRC-32 checksums, fragmentation of a
payload into fixed-size data blocks, parsing of single blocks, and
reassembly (`CombineDataBlocks`).  Go byte slices become `List Nat`
(entries are byte values), machine integers become `Nat` with explicit
masking, fallible operations return `Except`, and a Go runtime fault
(index out of range, division by zero) is the distinguished error
`DmrError.fault`.
-/

namespace DMR

/-- Errors surfaced by the embedded operations.  `fault` stands for a Go
runtime fault (out-of-range index / slice, division by zero); the other
constructors are the error values the source returns. -/
inductive DmrError where
  | fault : DmrError
  | blockCRC : Nat → Nat → DmrError
  | fragmentCRC : Nat → Nat → DmrError
  | noBlocks : DmrError
deriving Repr, DecidableEq

deriving instance DecidableEq for Except

/-- n_DFragMax, maximum packet fragment size in bytes. -/
def MaxPacketFragmentSize : Nat := 1500

/-- Modelled from the spec: the data-type codes (`Rate12Data`,
`Rate34Data`, `Data`) are declared outside `data.go`; the spec only
requires them to be distinct small enumerated codes, so we fix
distinct byte values. -/
def Data : Nat := 6

/-- Modelled from the spec: rate 1/2 data-type code. -/
def Rate12Data : Nat := 7

/-- Modelled from the spec: rate 3/4 data-type code. -/
def Rate34Data : Nat := 8

/-- Modelled from the spec: the bit constant `B00000001`. -/
def B00000001 : Nat := 1

/-- Modelled from the spec: one step of the bit-serial CRC recurrence,
for a register of `width` bits with polynomial tap `tap`:
`newBit = ((crc >>> (width-1)) ^^^ bit) &&& 1`, then
`crc = (crc <<< 1) ^^^ (if newBit then tap else 0)`, masked to `width`
bits.  The helpers `crc9`, `crc9end`, `crc32`, `crc32end` used by
`data.go` live outside the given source, so they are modelled from the
spec's bit-level description. -/
def crcBit (width tap crc bit : Nat) : Nat :=
  let newBit := ((crc >>> (width - 1)) ^^^ bit) &&& 1
  ((crc <<< 1) ^^^ (if newBit = 1 then tap else 0)) % 2 ^ width

/-- Modelled from the spec: feed the low `bits` bits of `b`, most
significant first, into the CRC register. -/
def feedBits (width tap crc b bits : Nat) : Nat :=
  (List.range bits).foldl (fun c i => crcBit width tap c ((b >>> (bits - 1 - i)) &&& 1)) crc

/-- Modelled from the spec: CRC-9 polynomial tap (the spec leaves the
tap value to the external air-interface document; 0x059 is the DMR
CRC-9 polynomial). -/
def crc9poly : Nat := 0x059

/-- Modelled from the spec: IEEE 802.3 CRC-32 polynomial. -/
def crc32poly : Nat := 0x04C11DB7

/-- Modelled from the spec: accumulate `bits` bits of byte `b` into the
9-bit CRC register. -/
def crc9 (crc b bits : Nat) : Nat := feedBits 9 crc9poly crc b bits

/-- Modelled from the spec: flush the 9-bit CRC register with `bits`
zero bits. -/
def crc9end (crc bits : Nat) : Nat :=
  (List.range bits).foldl (fun c _ => crcBit 9 crc9poly c 0) crc

/-- Modelled from the spec: accumulate one byte (8 bits, MSB first)
into the 32-bit CRC register. -/
def crc32 (crc b : Nat) : Nat := feedBits 32 crc32poly crc b 8

/-- Modelled from the spec: flush the 32-bit CRC register with 32 zero
bits. -/
def crc32end (crc : Nat) : Nat :=
  (List.range 32).foldl (fun c _ => crcBit 32 crc32poly c 0) crc

/-- CRC masks for the data block CRC-9 calculation (Table B.21).  A Go
map lookup with a missing key yields the zero value, hence the final 0
branch. -/
def crc9Masks (dataType : Nat) : Nat :=
  if dataType = Rate12Data then 0x00f0
  else if dataType = Rate34Data then 0x01ff
  else 0

/-- CRC-9 of a block: every payload byte (8 bits each), then the serial
(7 bits), then an 8-bit flush; invert (as a `uint16` complement), mask
to 9 bits, and apply the data-type mask. -/
def calculateCRC9 (serial : Nat) (data : List Nat) (dataType : Nat) : Nat :=
  let c := data.foldl (fun c b => crc9 c b 8) 0
  let c := crc9 c serial 7
  let c := crc9end c 8
  let c := (0xffff ^^^ c) &&& 0x01ff
  c ^^^ crc9Masks dataType

/-- Total block length per data type; `none` models a missing Go map
key. -/
def dataBlockLengths (dataType : Nat) : Option Nat :=
  if dataType = Rate12Data then some 12
  else if dataType = Rate34Data then some 18
  else if dataType = Data then some 22
  else none

structure DataBlock where
  Serial : Nat
  CRC : Nat
  OK : Bool
  Data : List Nat
  Length : Nat
deriving Repr, DecidableEq

/-- Payload capacity of one block: the table length, minus 2 when the
block is confirmed; 0 (the Go zero value) for an unknown data type. -/
def userDataLength (dataType : Nat) (confirmed : Bool) : Nat :=
  match dataBlockLengths dataType with
  | some size => if confirmed then size - 2 else size
  | none => 0

/-- The block value `ParseDataBlock` has built just before the CRC-9
comparison (confirmed path): serial from the top 7 bits of byte 0, the
9-bit checksum from the low bit of byte 0 and byte 1, the payload from
the following `Length` bytes, `OK` still at its zero value `false`. -/
def decodedBlockBeforeCheck (data : List Nat) (dataType : Nat) : DataBlock :=
  let len := userDataLength dataType true
  { Serial := data.getD 0 0 >>> 1
    CRC := ((data.getD 0 0 &&& B00000001) <<< 8) ||| data.getD 1 0
    OK := false
    Data := (data.drop 2).take len
    Length := len }

/-- Parse one data block from its wire bytes.  Accessing bytes the
input does not have is a Go runtime fault, modelled as `.fault`. -/
def ParseDataBlock (data : List Nat) (dataType : Nat) (confirmed : Bool) :
    Except DmrError DataBlock :=
  let len := userDataLength dataType confirmed
  if confirmed then
    if 2 + len ≤ data.length then
      let db := decodedBlockBeforeCheck data dataType
      let crc := calculateCRC9 db.Serial db.Data dataType
      if crc ≠ db.CRC then
        .error (.blockCRC crc db.CRC)
      else
        .ok { db with OK := true }
    else
      .error .fault
  else
    if len ≤ data.length then
      .ok { Serial := 0, CRC := 0, OK := true, Data := data.take len, Length := len }
    else
      .error .fault

structure DataFragment where
  Data : List Nat
  Stored : Nat
  Needed : Nat
  CRC : Nat
deriving Repr, DecidableEq

/-- Number of blocks computed by `DataBlocks`:
`(stored + blockCap - 1) / blockCap`, plus one more block when the
remaining room in the last block is under the 4 bytes needed for the
trailing CRC-32. -/
def neededBlocks (stored blockCap : Nat) : Nat :=
  let n := (stored + blockCap - 1) / blockCap
  if n * blockCap - stored < 4 then n + 1 else n

/-- Body of the fragment CRC-32 loop, recursing on the number of
remaining iterations so the kernel can reduce it. -/
def crc32loopAux (data : List Nat) (stored n4 : Nat) : Nat → Nat → Nat → Nat
  | 0, crc, _ => crc
  | fuel + 1, crc, i =>
    let c1 := crc32 crc (if i + 1 < stored then data.getD (i + 1) 0 else 0)
    let c2 := crc32 c1 (if i < stored then data.getD i 0 else 0)
    crc32loopAux data stored n4 fuel c2 (i + 2)

/-- The fragment CRC-32 loop of `DataBlocks`: for the index starting at
`i` in steps of 2 while below `n4`, feed the byte at offset `i+1` and
then the byte at offset `i`, each replaced by 0 at offsets at or beyond
`stored`.  The iteration count is `(n4 - i + 1) / 2`. -/
def crc32loop (data : List Nat) (stored crc i n4 : Nat) : Nat :=
  crc32loopAux data stored n4 ((n4 - i + 1) / 2) crc i

/-- The guarded unfolding of `crc32loop`, matching the source loop. -/
theorem crc32loop_eq (data : List Nat) (stored crc i n4 : Nat) :
    crc32loop data stored crc i n4 =
      if i < n4 then
        crc32loop data stored
          (crc32 (crc32 crc (if i + 1 < stored then data.getD (i + 1) 0 else 0))
            (if i < stored then data.getD i 0 else 0)) (i + 2) n4
      else crc := by
  unfold crc32loop
  by_cases h : i < n4
  · have h1 : (n4 - i + 1) / 2 = (n4 - (i + 2) + 1) / 2 + 1 := by omega
    rw [h1]
    simp [crc32loopAux, h]
  · have h1 : (n4 - i + 1) / 2 = 0 := by omega
    rw [h1]
    simp [crc32loopAux, h]

/-- Payload of one block before trailer placement: up to `store` bytes
copied from the fragment data at offset `storedAcc`, zero-padded to the
block capacity (Go `make` plus `copy`). -/
def mkBlockData (dfData : List Nat) (storedAcc store blockCap : Nat) : List Nat :=
  ((dfData.drop storedAcc).take store) ++ List.replicate (blockCap - store) 0

/-- Overwrite the last 4 bytes of the final block with the fragment
CRC-32, least significant byte first (each byte a `uint8` cast). -/
def finalizeBlockData (bd : List Nat) (len crc : Nat) : List Nat :=
  ((((bd.set (len - 1) ((crc >>> 24) % 256)).set (len - 2) ((crc >>> 16) % 256)).set
      (len - 3) ((crc >>> 8) % 256)).set (len - 4) (crc % 256))

/-- Body of the block-building loop, recursing on the number of
remaining blocks so the kernel can reduce it. -/
def buildBlocksAux (dfData : List Nat) (stored blockCap dataType crc needed : Nat) :
    Nat → Nat → Nat → List DataBlock
  | 0, _, _ => []
  | fuel + 1, i, storedAcc =>
    let store := min blockCap (stored - storedAcc)
    let bd0 := mkBlockData dfData storedAcc store blockCap
    let bd := if i = needed - 1 then finalizeBlockData bd0 blockCap crc else bd0
    { Serial := i % 128
      CRC := calculateCRC9 (i % 128) bd dataType
      OK := false
      Data := bd
      Length := blockCap } ::
      buildBlocksAux dfData stored blockCap dataType crc needed fuel (i + 1) (storedAcc + store)

/-- The block-building loop of `DataBlocks`, for block numbers from `i`
to `needed - 1`: block `i` carries serial `i % 128`,
`min blockCap (stored - storedAcc)` bytes of payload copied from the
fragment at offset `storedAcc`, zero padding, the CRC-32 trailer when
it is the last block, and its own CRC-9. -/
def buildBlocks (dfData : List Nat) (stored blockCap dataType crc needed i storedAcc : Nat) :
    List DataBlock :=
  buildBlocksAux dfData stored blockCap dataType crc needed (needed - i) i storedAcc

/-- The guarded unfolding of `buildBlocks`, matching the source loop. -/
theorem buildBlocks_eq (dfData : List Nat) (stored blockCap dataType crc needed i storedAcc : Nat) :
    buildBlocks dfData stored blockCap dataType crc needed i storedAcc =
      if i < needed then
        let store := min blockCap (stored - storedAcc)
        let bd0 := mkBlockData dfData storedAcc store blockCap
        let bd := if i = needed - 1 then finalizeBlockData bd0 blockCap crc else bd0
        { Serial := i % 128
          CRC := calculateCRC9 (i % 128) bd dataType
          OK := false
          Data := bd
          Length := blockCap } ::
          buildBlocks dfData stored blockCap dataType crc needed (i + 1) (storedAcc + store)
      else [] := by
  unfold buildBlocks
  by_cases h : i < needed
  · have h1 : needed - i = (needed - (i + 1)) + 1 := by omega
    rw [h1]
    simp [buildBlocksAux, h]
  · have h1 : needed - i = 0 := by omega
    rw [h1]
    simp [buildBlocksAux, h]

/-- Fragment a payload into data blocks.  Clamps `Stored` to 1500,
derives the block count, accumulates the fragment CRC-32 into the
existing `CRC` field over the zero-padded region (trailer excluded),
and builds the blocks.  An unknown data type makes `blockCap` zero and
the Go division by zero is a runtime fault. -/
def DataFragment.DataBlocks (df : DataFragment) (dataType : Nat) (confirm : Bool) :
    Except DmrError (DataFragment × List DataBlock) :=
  let stored := min df.Data.length MaxPacketFragmentSize
  let blockCap := userDataLength dataType confirm
  if blockCap = 0 then .error .fault
  else
    let needed := neededBlocks stored blockCap
    let crc := crc32end (crc32loop df.Data stored df.CRC 0 (needed * blockCap - 4))
    let df' : DataFragment := { df with Stored := stored, Needed := needed, CRC := crc }
    .ok (df', buildBlocks df.Data stored blockCap dataType crc needed 0 0)

/-- Go `copy(dst[off:], src)`: overwrite `min src.length (dst.length - off)`
bytes of `dst` starting at `off`; the length of `dst` is preserved. -/
def listCopy (dst : List Nat) (off : Nat) (src : List Nat) : List Nat :=
  let k := min src.length (dst.length - off)
  dst.take off ++ src.take k ++ dst.drop (off + k)

/-- Recompose the fragment CRC-32 from the last 4 bytes of the final
block, least significant byte first (`f.CRC |= ... << 8k`). -/
def trailerCRC (bd : List Nat) (len : Nat) : Nat :=
  (bd.getD (len - 4) 0) ||| ((bd.getD (len - 3) 0) <<< 8) |||
    ((bd.getD (len - 2) 0) <<< 16) ||| ((bd.getD (len - 1) 0) <<< 24)

/-- One iteration of the `CombineDataBlocks` loop, for block number `i`
of `n`.  A zero-`Length` block is skipped.  A non-final block is
appended only under the bound check `Stored + Length < 1500`, a final
block only under `Stored + Length - 4 < 1500`; a block failing its
check leaves `Data` and `Stored` untouched.  The final block's last 4
bytes are always read as the fragment CRC-32; the Go slice and index
expressions fault when `Length` exceeds the block's data or (final
block) `Length` is below 4. -/
def combineStep (n i : Nat) (st : DataFragment) (block : DataBlock) :
    Except DmrError DataFragment :=
  if block.Length = 0 then .ok st
  else if i < n - 1 then
    if st.Stored + block.Length < st.Data.length then
      if block.Length ≤ block.Data.length then
        .ok { st with
          Data := listCopy st.Data st.Stored (block.Data.take block.Length)
          Stored := st.Stored + block.Length }
      else .error .fault
    else .ok st
  else
    let copied : Except DmrError DataFragment :=
      if st.Stored + block.Length - 4 < st.Data.length then
        if block.Length ≤ block.Data.length then
          .ok { st with
            Data := listCopy st.Data st.Stored (block.Data.take block.Length)
            Stored := st.Stored + block.Length }
        else .error .fault
      else .ok st
    match copied with
    | .error e => .error e
    | .ok st' =>
      if 4 ≤ block.Length ∧ block.Length ≤ block.Data.length then
        .ok { st' with CRC := trailerCRC block.Data block.Length }
      else .error .fault

/-- The block loop of `CombineDataBlocks`. -/
def combineLoop (n : Nat) : Nat → DataFragment → List DataBlock → Except DmrError DataFragment
  | _, st, [] => .ok st
  | i, st, b :: rest =>
    match combineStep n i st b with
    | .error e => .error e
    | .ok st' => combineLoop n (i + 1) st' rest

/-- Body of the verification CRC-32 loop, recursing on the number of
remaining iterations so the kernel can reduce it. -/
def combineCrcLoopAux (data : List Nat) (bound : Nat) : Nat → Nat → Nat → Nat
  | 0, crc, _ => crc
  | fuel + 1, crc, i =>
    combineCrcLoopAux data bound fuel
      (crc32 (crc32 crc (data.getD (i + 1) 0)) (data.getD i 0)) (i + 2)

/-- The verification CRC-32 loop of `CombineDataBlocks`: over
`f.Data[0 .. bound)` in swapped byte pairs, the index starting at `i`
in steps of 2.  The iteration count is `(bound - i + 1) / 2`. -/
def combineCrcLoop (data : List Nat) (crc i bound : Nat) : Nat :=
  combineCrcLoopAux data bound ((bound - i + 1) / 2) crc i

/-- The guarded unfolding of `combineCrcLoop`, matching the source
loop. -/
theorem combineCrcLoop_eq (data : List Nat) (crc i bound : Nat) :
    combineCrcLoop data crc i bound =
      if i < bound then
        combineCrcLoop data (crc32 (crc32 crc (data.getD (i + 1) 0)) (data.getD i 0)) (i + 2) bound
      else crc := by
  unfold combineCrcLoop
  by_cases h : i < bound
  · have h1 : (bound - i + 1) / 2 = (bound - (i + 2) + 1) / 2 + 1 := by omega
    rw [h1]
    simp [combineCrcLoopAux, h]
  · have h1 : (bound - i + 1) / 2 = 0 := by omega
    rw [h1]
    simp [combineCrcLoopAux, h]

/-- Reassemble a fragment from its blocks: fail on an empty block list,
append the block payloads into a fresh 1500-byte buffer, read the
fragment CRC-32 from the final block, recompute the CRC-32 over
`Data[0 .. Stored-4)` and fail on mismatch. -/
def CombineDataBlocks (blocks : List DataBlock) : Except DmrError DataFragment :=
  if blocks.length = 0 then .error .noBlocks
  else
    match combineLoop blocks.length 0
        { Data := List.replicate MaxPacketFragmentSize 0, Stored := 0, Needed := 0, CRC := 0 }
        blocks with
    | .error e => .error e
    | .ok f =>
      let crc := crc32end (combineCrcLoop f.Data 0 0 (f.Stored - 4))
      if crc ≠ f.CRC then .error (.fragmentCRC crc f.CRC) else .ok f

set_option maxRecDepth 8000

/-! ## Basic facts about the block-size table -/

/-- For the three known data types the block capacity is at least 10
bytes and even. -/
theorem userDataLength_known (dataType : Nat) (confirmed : Bool)
    (h : dataType = Rate12Data ∨ dataType = Rate34Data ∨ dataType = Data) :
    10 ≤ userDataLength dataType confirmed ∧ userDataLength dataType confirmed % 2 = 0 := by
  rcases h with h | h | h <;> subst h <;> cases confirmed <;> decide

/-! ## Claim theorems: parsing and the empty-input error -/

/-- C8: `CombineDataBlocks` invoked with the empty sequence of blocks
fails with the empty-input error and returns no fragment. -/
theorem combineDataBlocks_empty_error :
    CombineDataBlocks [] = .error .noBlocks := by decide

/-- C6 (counterexample): on an input buffer shorter than the declared
block layout, `ParseDataBlock` does not surface an error value to the
caller; it hits a Go runtime fault (index out of range) — there is no
structural-error return in the code. -/
theorem parseDataBlock_empty_input_is_fault :
    ParseDataBlock [] Rate12Data true = .error .fault := by decide

/-- C6 (amended): for every input buffer shorter than the declared
block layout (fewer than 2 header bytes plus the table-derived payload
when confirmed, fewer than the payload length otherwise),
`ParseDataBlock` ends in a Go runtime fault (out-of-range access),
modelled as the `.fault` error; it does not return a structural-error
value. -/
theorem parseDataBlock_short_input_runtime_fault (data : List Nat) (dataType : Nat)
    (confirmed : Bool)
    (h : if confirmed then data.length < 2 + userDataLength dataType confirmed
         else data.length < userDataLength dataType confirmed) :
    ParseDataBlock data dataType confirmed = .error .fault := by
  cases confirmed <;> simp at h <;> simp [ParseDataBlock, Nat.not_le.mpr h]

/-- C6 witness: a 5-byte buffer is too short for a confirmed rate-1/2
block (needs 2 + 10 bytes). -/
theorem parseDataBlock_short_input_runtime_fault_witness :
    ParseDataBlock [1, 2, 3, 4, 5] Rate12Data true = .error .fault :=
  parseDataBlock_short_input_runtime_fault [1, 2, 3, 4, 5] Rate12Data true (by decide)

/-- C5: when the recomputed CRC-9 of a confirmed block disagrees with
the stored checksum, `ParseDataBlock` fails with the checksum-mismatch
error, while the block value decoded up to that point is structurally
valid (payload of the table-derived length, serial and checksum fields
from the header layout) and its verified flag `OK` is still `false`. -/
theorem parseDataBlock_crc_mismatch_error (data : List Nat) (dataType : Nat)
    (hlen : 2 + userDataLength dataType true ≤ data.length)
    (hcrc : calculateCRC9 (decodedBlockBeforeCheck data dataType).Serial
        (decodedBlockBeforeCheck data dataType).Data dataType ≠
        (decodedBlockBeforeCheck data dataType).CRC) :
    ParseDataBlock data dataType true =
      .error (.blockCRC
        (calculateCRC9 (decodedBlockBeforeCheck data dataType).Serial
          (decodedBlockBeforeCheck data dataType).Data dataType)
        (decodedBlockBeforeCheck data dataType).CRC) ∧
    (decodedBlockBeforeCheck data dataType).OK = false ∧
    (decodedBlockBeforeCheck data dataType).Length = userDataLength dataType true ∧
    (decodedBlockBeforeCheck data dataType).Data.length = userDataLength dataType true ∧
    (decodedBlockBeforeCheck data dataType).Serial = data.getD 0 0 >>> 1 ∧
    (decodedBlockBeforeCheck data dataType).CRC =
      ((data.getD 0 0 &&& B00000001) <<< 8) ||| data.getD 1 0 := by
  refine ⟨?_, rfl, rfl, ?_, rfl, rfl⟩
  · simp [ParseDataBlock, hlen, hcrc]
  · simp only [decodedBlockBeforeCheck]
    rw [List.length_take, List.length_drop]
    omega

/-- C5 witness: twelve zero bytes parsed as a confirmed rate-1/2 block
have stored checksum 0 but recomputed CRC-9 271. -/
theorem parseDataBlock_crc_mismatch_error_witness :
    ParseDataBlock (List.replicate 12 0) Rate12Data true = .error (.blockCRC 271 0) := by
  have h := parseDataBlock_crc_mismatch_error (List.replicate 12 0) Rate12Data
    (by decide) (by decide)
  have h1 := h.1
  rw [h1]
  decide

/-- C9: for the three known data types `userDataLength` returns a
block capacity of at least 10 bytes, so the divisor in `DataBlocks` is
non-zero; for any other data type it returns 0 and `DataBlocks` hits
the Go division by zero, a runtime fault. -/
theorem userDataLength_known_positive_unknown_fault (dataType : Nat) (confirm : Bool)
    (df : DataFragment) :
    ((dataType = Rate12Data ∨ dataType = Rate34Data ∨ dataType = Data) →
      10 ≤ userDataLength dataType confirm) ∧
    (dataType ≠ Rate12Data ∧ dataType ≠ Rate34Data ∧ dataType ≠ Data →
      userDataLength dataType confirm = 0 ∧
        df.DataBlocks dataType confirm = .error .fault) := by
  constructor
  · intro h
    exact (userDataLength_known dataType confirm h).1
  · rintro ⟨h1, h2, h3⟩
    have hz : userDataLength dataType confirm = 0 := by
      simp [userDataLength, dataBlockLengths, h1, h2, h3]
    exact ⟨hz, by simp [DataFragment.DataBlocks, hz]⟩

/-- C9 witness: data type 9 (outside the table) gives capacity 0 and a
runtime fault, while rate-1/2 data gives capacity at least 10. -/
theorem userDataLength_known_positive_unknown_fault_witness :
    10 ≤ userDataLength Rate12Data true ∧
      userDataLength 9 true = 0 ∧
      DataFragment.DataBlocks { Data := [1], Stored := 0, Needed := 0, CRC := 0 } 9 true =
        .error .fault := by
  refine ⟨?_, ?_, ?_⟩
  · exact (userDataLength_known_positive_unknown_fault Rate12Data true
      { Data := [1], Stored := 0, Needed := 0, CRC := 0 }).1 (Or.inl rfl)
  · exact ((userDataLength_known_positive_unknown_fault 9 true
      { Data := [1], Stored := 0, Needed := 0, CRC := 0 }).2 (by decide)).1
  · exact ((userDataLength_known_positive_unknown_fault 9 true
      { Data := [1], Stored := 0, Needed := 0, CRC := 0 }).2 (by decide)).2

/-- C7: a block whose payload copy would overflow the 1500-byte
fragment buffer under the source's strict bound check
(`Stored + Length < 1500` for a non-final block,
`Stored + Length - 4 < 1500` for the final block) is silently dropped:
`combineStep` succeeds and leaves the fragment's `Data` and `Stored`
unchanged.  (For a dropped final block the CRC-32 field is still read
from the block, which is why the final case assumes the block's data
is at least 4 bytes and covers its declared length.) -/
theorem combineStep_overflow_drop (n i : Nat) (st : DataFragment) (block : DataBlock)
    (hbuf : st.Data.length = 1500)
    (hL : block.Length ≠ 0)
    (h : (i < n - 1 ∧ ¬ st.Stored + block.Length < 1500) ∨
         (¬ i < n - 1 ∧ ¬ st.Stored + block.Length - 4 < 1500 ∧
           4 ≤ block.Length ∧ block.Length ≤ block.Data.length)) :
    ∃ st', combineStep n i st block = .ok st' ∧ st'.Data = st.Data ∧ st'.Stored = st.Stored := by
  rcases h with ⟨hi, hov⟩ | ⟨hi, hov, h4, hdl⟩
  · exact ⟨st, by simp [combineStep, hL, hi, hbuf, hov], rfl, rfl⟩
  · refine ⟨{ st with CRC := trailerCRC block.Data block.Length }, ?_, rfl, rfl⟩
    simp [combineStep, hL, hi, hbuf, hov, h4, hdl]

/-- C7 witness: a non-final 12-byte block that would make `Stored`
exactly 1500 is dropped, with `Data` and `Stored` unchanged. -/
theorem combineStep_overflow_drop_witness :
    ∃ st', combineStep 2 0
        { Data := List.replicate 1500 0, Stored := 1488, Needed := 0, CRC := 0 }
        { Serial := 0, CRC := 0, OK := false, Data := List.replicate 12 0, Length := 12 } =
        .ok st' ∧
      st'.Data = List.replicate 1500 0 ∧ st'.Stored = 1488 :=
  combineStep_overflow_drop 2 0
    { Data := List.replicate 1500 0, Stored := 1488, Needed := 0, CRC := 0 }
    { Serial := 0, CRC := 0, OK := false, Data := List.replicate 12 0, Length := 12 }
    (by decide) (by decide) (Or.inl ⟨by decide, by decide⟩)

/-- C2 (counterexample): fragmenting the empty payload at rate 1/2
unconfirmed yields one block whose 12-byte payload is not only the
4-byte CRC-32 trailer, and `CombineDataBlocks` on that block returns a
fragment with `Stored = 12`, not a zero-length fragment. -/
theorem fragment_empty_payload_not_trailer_only :
    (match DataFragment.DataBlocks { Data := [], Stored := 0, Needed := 0, CRC := 0 }
        Rate12Data false with
     | .ok (_, blocks) =>
        (blocks.map (fun b => b.Data.length),
          (CombineDataBlocks blocks).toOption.map (fun f => f.Stored))
     | .error _ => ([], none)) = ([12], some 12) := by decide

/-- C2 (amended): fragmenting the empty payload, for every known data
type and confirmed flag, yields exactly one block, whose payload is
`blockCap - 4` zero bytes followed by the 4-byte CRC-32 trailer (least
significant byte first); `CombineDataBlocks` on that single block
succeeds, but the returned fragment stores the whole padded block:
`Stored = blockCap`, not 0. -/
theorem fragment_empty_payload_one_block (dataType : Nat) (c : Bool)
    (h : dataType = Rate12Data ∨ dataType = Rate34Data ∨ dataType = Data) :
    ((DataFragment.DataBlocks { Data := [], Stored := 0, Needed := 0, CRC := 0 }
        dataType c).toOption.map fun r =>
      (r.1.Needed,
        r.2.map (fun b => b.Data) ==
          [List.replicate (userDataLength dataType c - 4) 0 ++
            [r.1.CRC % 256, (r.1.CRC >>> 8) % 256, (r.1.CRC >>> 16) % 256,
              (r.1.CRC >>> 24) % 256]],
        (CombineDataBlocks r.2).toOption.map (fun f => f.Stored))) =
      some (1, true, some (userDataLength dataType c)) := by
  rcases h with h | h | h <;> subst h <;> cases c <;> decide

/-- C2 witness: the amended statement at the plain `Data` type,
confirmed. -/
theorem fragment_empty_payload_one_block_witness :
    ((DataFragment.DataBlocks { Data := [], Stored := 0, Needed := 0, CRC := 0 }
        Data true).toOption.map fun r =>
      (r.1.Needed,
        r.2.map (fun b => b.Data) ==
          [List.replicate (userDataLength Data true - 4) 0 ++
            [r.1.CRC % 256, (r.1.CRC >>> 8) % 256, (r.1.CRC >>> 16) % 256,
              (r.1.CRC >>> 24) % 256]],
        (CombineDataBlocks r.2).toOption.map (fun f => f.Stored))) =
      some (1, true, some (userDataLength Data true)) :=
  fragment_empty_payload_one_block Data true (by decide)

/-! ## The fragment CRC-32 feed, stated the way the spec words it -/

/-- Modelled from the spec's description of the fragment CRC-32 (for
comparison with the source loop): the bytes fed to the accumulator, in
order — for each pair index the byte at the odd offset first, then the
byte at the even offset, offsets at or beyond `stored` contributing a
zero byte. -/
def swappedPairBytes (data : List Nat) (stored n4 : Nat) : List Nat :=
  ((List.range ((n4 + 1) / 2)).map fun k =>
    [if 2 * k + 1 < stored then data.getD (2 * k + 1) 0 else 0,
     if 2 * k < stored then data.getD (2 * k) 0 else 0]).flatten

/-- The loop body `crc32loopAux` folds `crc32` over the swapped-pair
byte sequence starting at index `i`. -/
theorem crc32loopAux_eq_foldl (data : List Nat) (stored n4 : Nat) :
    ∀ fuel i crc, crc32loopAux data stored n4 fuel crc i =
      List.foldl crc32 crc
        (((List.range fuel).map fun k =>
          [if i + 2 * k + 1 < stored then data.getD (i + 2 * k + 1) 0 else 0,
           if i + 2 * k < stored then data.getD (i + 2 * k) 0 else 0]).flatten) := by
  intro fuel
  induction fuel with
  | zero => intro i crc; simp [crc32loopAux]
  | succ fuel ih =>
    intro i crc
    rw [List.range_succ_eq_map, List.map_cons, List.flatten_cons, List.map_map]
    have harg : ∀ k : Nat,
        ((fun k =>
          [if i + 2 * k + 1 < stored then data.getD (i + 2 * k + 1) 0 else 0,
           if i + 2 * k < stored then data.getD (i + 2 * k) 0 else 0]) ∘ Nat.succ) k =
        [if (i + 2) + 2 * k + 1 < stored then data.getD ((i + 2) + 2 * k + 1) 0 else 0,
         if (i + 2) + 2 * k < stored then data.getD ((i + 2) + 2 * k) 0 else 0] := by
      intro k
      have h1 : i + 2 * (k + 1) + 1 = (i + 2) + 2 * k + 1 := by ring
      have h2 : i + 2 * (k + 1) = (i + 2) + 2 * k := by ring
      simp [Function.comp, h1, h2]
    rw [List.map_congr_left fun k _ => harg k]
    simp only [crc32loopAux, Nat.mul_zero, Nat.add_zero]
    rw [ih (i + 2)]
    simp [List.foldl_cons]

/-- The source's fragment CRC-32 loop, started at index 0, equals the
fold of `crc32` over the spec's swapped-pair byte sequence. -/
theorem crc32loop_eq_foldl_swappedPairBytes (data : List Nat) (stored crc n4 : Nat) :
    crc32loop data stored crc 0 n4 = List.foldl crc32 crc (swappedPairBytes data stored n4) := by
  unfold crc32loop swappedPairBytes
  rw [crc32loopAux_eq_foldl]
  simp

/-- C4: the fragment CRC-32 computed by `DataBlocks` is accumulated
over the padded region of `Needed * blockCap - 4` bytes in swapped
byte-pair order — for each even pair offset the byte at the odd offset
is fed first — with offsets at or beyond `Stored` contributing zero
bytes; the accumulation starts from the fragment's `CRC` field and is
finished by the 32-bit flush. -/
theorem fragment_crc32_swapped_pair_feed (df : DataFragment) (dataType : Nat) (c : Bool)
    (h : userDataLength dataType c ≠ 0) :
    ∃ df' blocks, df.DataBlocks dataType c = .ok (df', blocks) ∧
      df'.CRC = crc32end (List.foldl crc32 df.CRC
        (swappedPairBytes df.Data (min df.Data.length MaxPacketFragmentSize)
          (df'.Needed * userDataLength dataType c - 4))) := by
  unfold DataFragment.DataBlocks
  rw [if_neg h]
  refine ⟨_, _, rfl, ?_⟩
  show crc32end (crc32loop df.Data (min df.Data.length MaxPacketFragmentSize) df.CRC 0 _) = _
  rw [crc32loop_eq_foldl_swappedPairBytes]

/-- C4 witness: the swapped-pair characterization at a concrete
3-byte fragment, rate 3/4 unconfirmed. -/
theorem fragment_crc32_swapped_pair_feed_witness :
    ∃ df' blocks,
      DataFragment.DataBlocks { Data := [1, 2, 3], Stored := 0, Needed := 0, CRC := 0 }
        Rate34Data false = .ok (df', blocks) ∧
      df'.CRC = crc32end (List.foldl crc32 0
        (swappedPairBytes [1, 2, 3] (min ([1, 2, 3] : List Nat).length MaxPacketFragmentSize)
          (df'.Needed * userDataLength Rate34Data false - 4))) :=
  fragment_crc32_swapped_pair_feed { Data := [1, 2, 3], Stored := 0, Needed := 0, CRC := 0 }
    Rate34Data false (by decide)

/-- C10: `DataBlocks` accumulates the fragment CRC-32 into the
fragment's existing `CRC` field without resetting it: the resulting
checksum is the CRC loop started from the incoming `df.CRC` (so the
specified checksum arises exactly when `df.CRC = 0` on entry), and on a
concrete fragment a second call to `DataBlocks` yields a different
`CRC` and different final-block trailer bytes than the first call. -/
theorem dataBlocks_crc_accumulates_existing :
    (∀ (df : DataFragment) (dataType : Nat) (c : Bool), userDataLength dataType c ≠ 0 →
      ∃ df' blocks, df.DataBlocks dataType c = .ok (df', blocks) ∧
        df'.CRC = crc32end (crc32loop df.Data (min df.Data.length MaxPacketFragmentSize)
          df.CRC 0 (df'.Needed * userDataLength dataType c - 4))) ∧
    ((DataFragment.DataBlocks { Data := [1], Stored := 0, Needed := 0, CRC := 0 }
        Rate12Data false).toOption.bind fun r1 =>
      (DataFragment.DataBlocks r1.1 Rate12Data false).toOption.map fun r2 =>
        (r1.1.CRC == r2.1.CRC,
          r1.2.map (fun b => b.Data.drop 8) == r2.2.map (fun b => b.Data.drop 8))) =
      some (false, false) := by
  constructor
  · intro df dataType c h
    unfold DataFragment.DataBlocks
    rw [if_neg h]
    exact ⟨_, _, rfl, rfl⟩
  · decide

/-- C10 witness: the accumulation equation applied at a concrete
fragment whose `CRC` field is non-zero on entry. -/
theorem dataBlocks_crc_accumulates_existing_witness :
    ∃ df' blocks,
      DataFragment.DataBlocks { Data := [1], Stored := 0, Needed := 0, CRC := 7 }
        Rate12Data false = .ok (df', blocks) ∧
      df'.CRC = crc32end (crc32loop [1] (min ([1] : List Nat).length MaxPacketFragmentSize)
        7 0 (df'.Needed * userDataLength Rate12Data false - 4)) :=
  dataBlocks_crc_accumulates_existing.1
    { Data := [1], Stored := 0, Needed := 0, CRC := 7 } Rate12Data false (by decide)

/-! ## Sizing invariants of the fragmenter -/

/-- The block count always leaves at least 4 bytes of trailing room:
`stored + 4 ≤ neededBlocks stored cap * cap` once the capacity is at
least 4. -/
theorem neededBlocks_ge (stored cap : Nat) (hcap : 4 ≤ cap) :
    stored + 4 ≤ neededBlocks stored cap * cap := by
  have hpos : 0 < cap := by omega
  have hceil : stored ≤ ((stored + cap - 1) / cap) * cap := by
    have h1 := Nat.lt_div_mul_add (a := stored + cap - 1) hpos
    omega
  unfold neededBlocks
  by_cases hlt : ((stored + cap - 1) / cap) * cap - stored < 4
  · rw [if_pos hlt, Nat.succ_mul]
    omega
  · rw [if_neg hlt]
    omega

/-- `buildBlocksAux` produces exactly `fuel` blocks. -/
theorem buildBlocksAux_length (dfData : List Nat) (stored blockCap dataType crc needed : Nat) :
    ∀ fuel i storedAcc,
      (buildBlocksAux dfData stored blockCap dataType crc needed fuel i storedAcc).length =
        fuel := by
  intro fuel
  induction fuel with
  | zero => intro i sa; rfl
  | succ fuel ih => intro i sa; simp [buildBlocksAux, ih]

/-- Length of a block payload before trailer placement. -/
theorem mkBlockData_length (dfData : List Nat) (sa store blockCap : Nat)
    (h1 : sa + store ≤ dfData.length) (h2 : store ≤ blockCap) :
    (mkBlockData dfData sa store blockCap).length = blockCap := by
  simp only [mkBlockData, List.length_append, List.length_take, List.length_drop,
    List.length_replicate]
  omega

/-- Trailer placement preserves the payload length. -/
theorem finalizeBlockData_length (bd : List Nat) (len crc : Nat) :
    (finalizeBlockData bd len crc).length = bd.length := by
  simp [finalizeBlockData]

/-- Every block built by `buildBlocksAux` has declared length and
payload length equal to the block capacity. -/
theorem buildBlocksAux_mem (dfData : List Nat) (stored blockCap dataType crc needed : Nat)
    (hsl : stored ≤ dfData.length) :
    ∀ fuel i storedAcc, storedAcc ≤ stored →
      ∀ b ∈ buildBlocksAux dfData stored blockCap dataType crc needed fuel i storedAcc,
        b.Length = blockCap ∧ b.Data.length = blockCap := by
  intro fuel
  induction fuel with
  | zero => intro i sa _ b hb; simp [buildBlocksAux] at hb
  | succ fuel ih =>
    intro i sa hsa b hb
    simp only [buildBlocksAux, List.mem_cons] at hb
    rcases hb with hb | hb
    · subst hb
      refine ⟨rfl, ?_⟩
      have hstore : min blockCap (stored - sa) ≤ blockCap := Nat.min_le_left _ _
      have hsum : sa + min blockCap (stored - sa) ≤ dfData.length := by omega
      by_cases hfin : i = needed - 1 <;>
        simp only [hfin, if_true, if_false, ite_true, ite_false, finalizeBlockData_length,
          mkBlockData_length dfData sa _ blockCap hsum hstore]
    · exact ih (i + 1) (sa + min blockCap (stored - sa)) (by omega) b hb

/-- C3: for every payload, known data type and confirmed flag,
`DataBlocks` succeeds and computes the block count by the source's
formula `neededBlocks` (the ceiling of `Stored / blockCap`, incremented
when the remaining room is under 4); every produced block's payload
length equals exactly the table-derived capacity, and the final padded
region keeps at least 4 bytes of trailing room:
`Stored + 4 ≤ Needed * blockCap`. -/
theorem dataBlocks_sizing_invariants (df : DataFragment) (dataType : Nat) (c : Bool)
    (h : dataType = Rate12Data ∨ dataType = Rate34Data ∨ dataType = Data) :
    ∃ df' blocks, df.DataBlocks dataType c = .ok (df', blocks) ∧
      df'.Needed = neededBlocks df'.Stored (userDataLength dataType c) ∧
      df'.Stored + 4 ≤ df'.Needed * userDataLength dataType c ∧
      blocks.length = df'.Needed ∧
      ∀ b ∈ blocks, b.Length = userDataLength dataType c ∧
        b.Data.length = userDataLength dataType c := by
  have hcap := (userDataLength_known dataType c h).1
  have hne : userDataLength dataType c ≠ 0 := by omega
  unfold DataFragment.DataBlocks
  rw [if_neg hne]
  refine ⟨_, _, rfl, rfl, ?_, ?_, ?_⟩
  · exact neededBlocks_ge _ _ (by omega)
  · exact buildBlocksAux_length _ _ _ _ _ _ _ _ _
  · exact buildBlocksAux_mem _ _ _ _ _ _ (Nat.min_le_left _ _) _ 0 0 (Nat.zero_le _)

/-- C3 witness: the sizing invariants at a concrete 20-byte payload,
rate 3/4 unconfirmed. -/
theorem dataBlocks_sizing_invariants_witness :
    ∃ df' blocks,
      DataFragment.DataBlocks
        { Data := List.replicate 20 170, Stored := 0, Needed := 0, CRC := 0 }
        Rate34Data false = .ok (df', blocks) ∧
      df'.Needed = neededBlocks df'.Stored (userDataLength Rate34Data false) ∧
      df'.Stored + 4 ≤ df'.Needed * userDataLength Rate34Data false ∧
      blocks.length = df'.Needed ∧
      ∀ b ∈ blocks, b.Length = userDataLength Rate34Data false ∧
        b.Data.length = userDataLength Rate34Data false :=
  dataBlocks_sizing_invariants
    { Data := List.replicate 20 170, Stored := 0, Needed := 0, CRC := 0 }
    Rate34Data false (by decide)

/-! ## Support lemmas for the fragmentation / reassembly round trip -/

/-- The value of the zero-padded fragment region at offset `j`. -/
def paddedByte (p : List Nat) (stored j : Nat) : Nat :=
  if j < stored then p.getD j 0 else 0

/-- One CRC step stays below the register bound. -/
theorem crcBit_lt (width tap crc bit : Nat) : crcBit width tap crc bit < 2 ^ width :=
  Nat.mod_lt _ (Nat.two_pow_pos width)

/-- The 32-bit flush always ends below `2 ^ 32`. -/
theorem crc32end_lt (c : Nat) : crc32end c < 2 ^ 32 := by
  unfold crc32end
  rw [show (32 : Nat) = 31 + 1 from rfl, List.range_succ, List.foldl_append]
  exact crcBit_lt 32 crc32poly _ 0

/-- Recomposing a 32-bit value from its four little-endian bytes by
shifted bitwise or. -/
theorem lor_four_bytes (x : Nat) (hx : x < 2 ^ 32) :
    (x % 256) ||| (((x >>> 8) % 256) <<< 8) ||| (((x >>> 16) % 256) <<< 16) |||
      (((x >>> 24) % 256) <<< 24) = x := by
  apply Nat.eq_of_testBit_eq
  intro i
  have h256 : (256 : Nat) = 2 ^ 8 := by norm_num
  simp only [Nat.testBit_lor, Nat.testBit_shiftLeft, h256, Nat.testBit_mod_two_pow,
    Nat.testBit_shiftRight]
  by_cases h1 : i < 8
  · rw [decide_eq_true (show i < 8 by omega),
      decide_eq_false (show ¬ i ≥ 8 by omega),
      decide_eq_false (show ¬ i ≥ 16 by omega),
      decide_eq_false (show ¬ i ≥ 24 by omega)]
    simp
  · by_cases h2 : i < 16
    · rw [decide_eq_false (show ¬ i < 8 by omega),
        decide_eq_true (show i ≥ 8 by omega),
        decide_eq_true (show i - 8 < 8 by omega),
        decide_eq_false (show ¬ i ≥ 16 by omega),
        decide_eq_false (show ¬ i ≥ 24 by omega),
        show 8 + (i - 8) = i by omega]
      simp
    · by_cases h3 : i < 24
      · rw [decide_eq_false (show ¬ i < 8 by omega),
          decide_eq_true (show i ≥ 8 by omega),
          decide_eq_false (show ¬ i - 8 < 8 by omega),
          decide_eq_true (show i ≥ 16 by omega),
          decide_eq_true (show i - 16 < 8 by omega),
          decide_eq_false (show ¬ i ≥ 24 by omega),
          show 16 + (i - 16) = i by omega]
        simp
      · by_cases h4 : i < 32
        · rw [decide_eq_false (show ¬ i < 8 by omega),
            decide_eq_true (show i ≥ 8 by omega),
            decide_eq_false (show ¬ i - 8 < 8 by omega),
            decide_eq_true (show i ≥ 16 by omega),
            decide_eq_false (show ¬ i - 16 < 8 by omega),
            decide_eq_true (show i ≥ 24 by omega),
            decide_eq_true (show i - 24 < 8 by omega),
            show 24 + (i - 24) = i by omega]
          simp
        · have hxi : x.testBit i = false :=
            Nat.testBit_lt_two_pow (lt_of_lt_of_le hx (Nat.pow_le_pow_right (by omega) (by omega)))
          rw [decide_eq_false (show ¬ i < 8 by omega),
            decide_eq_false (show ¬ i - 8 < 8 by omega),
            decide_eq_false (show ¬ i - 16 < 8 by omega),
            decide_eq_false (show ¬ i - 24 < 8 by omega), hxi]
          simp

/-- `listCopy` preserves the destination length (Go `copy` semantics). -/
theorem listCopy_length (dst : List Nat) (off : Nat) (src : List Nat) :
    (listCopy dst off src).length = dst.length := by
  simp only [listCopy, List.length_append, List.length_take, List.length_drop]
  omega

/-- Byte-level reading of `listCopy`: inside the copied window the
source byte, outside it the destination byte. -/
theorem listCopy_getD (dst : List Nat) (off : Nat) (src : List Nat) (j : Nat)
    (hoff : off ≤ dst.length) :
    (listCopy dst off src).getD j 0 =
      if j < off then dst.getD j 0
      else if j < off + min src.length (dst.length - off) then src.getD (j - off) 0
      else dst.getD j 0 := by
  simp only [listCopy]
  set k := min src.length (dst.length - off) with hk
  have hA : (dst.take off).length = off := by
    simp [List.length_take]; omega
  have hB : (src.take k).length = k := by
    simp [List.length_take]; omega
  simp only [List.getD_eq_getElem?_getD, List.getElem?_append, List.getElem?_take,
    List.getElem?_drop, List.length_append, hA, hB]
  split_ifs <;>
    first
      | rfl
      | omega
      | (congr 2; omega)

/-- Byte-level reading of one block's pre-trailer payload: position
`j` of block `i` holds the zero-padded fragment byte at global offset
`i * cap + j`. -/
theorem mkBlockData_getD (p : List Nat) (stored cap i j : Nat)
    (hsl : stored ≤ p.length) (hj : j < cap) :
    (mkBlockData p (min (i * cap) stored)
        (min cap (stored - min (i * cap) stored)) cap).getD j 0 =
      paddedByte p stored (i * cap + j) := by
  set sa := min (i * cap) stored with hsa
  set store := min cap (stored - sa) with hstore
  have hsastore : sa + store ≤ stored := by omega
  have hlenA : ((p.drop sa).take store).length = store := by
    simp only [List.length_take, List.length_drop]
    omega
  by_cases h1 : j < store
  · have hsaeq : sa = i * cap := by omega
    have hik : i * cap + j < stored := by omega
    rw [mkBlockData, List.getD_append _ _ _ _ (by rw [hlenA]; exact h1),
      List.getD_eq_getElem _ _ (by rw [hlenA]; exact h1)]
    rw [List.getElem_take, List.getElem_drop, paddedByte, if_pos hik,
      List.getD_eq_getElem _ _ (by omega)]
    congr 1
    omega
  · have hik : ¬ i * cap + j < stored := by omega
    rw [mkBlockData, List.getD_append_right _ _ _ _ (by omega), hlenA, paddedByte, if_neg hik,
      List.getD_eq_getElem _ _ (by rw [List.length_replicate]; omega), List.getElem_replicate]

/-- Byte-level reading of the final block after trailer placement: the
last 4 positions hold the fragment CRC-32, least significant byte
first; the rest is unchanged. -/
theorem finalizeBlockData_getD (bd : List Nat) (len crc j : Nat)
    (hbd : bd.length = len) (h4 : 4 ≤ len) (hj : j < len) :
    (finalizeBlockData bd len crc).getD j 0 =
      if j < len - 4 then bd.getD j 0
      else [crc % 256, (crc >>> 8) % 256, (crc >>> 16) % 256, (crc >>> 24) % 256].getD
        (j - (len - 4)) 0 := by
  have hlen : (finalizeBlockData bd len crc).length = len := by
    rw [finalizeBlockData_length, hbd]
  rw [List.getD_eq_getElem _ _ (by omega)]
  simp only [finalizeBlockData, List.getElem_set]
  by_cases h1 : j < len - 4
  · rw [if_neg (by omega), if_neg (by omega), if_neg (by omega), if_neg (by omega),
      if_pos h1, List.getD_eq_getElem _ _ (by omega)]
  · by_cases h2 : j = len - 4
    · rw [if_pos (by omega), if_neg h1]
      subst h2
      simp
    · by_cases h3 : j = len - 3
      · rw [if_neg (by omega), if_pos (by omega), if_neg h1]
        have : j - (len - 4) = 1 := by omega
        rw [this]
        rfl
      · by_cases h5 : j = len - 2
        · rw [if_neg (by omega), if_neg (by omega), if_pos (by omega), if_neg h1]
          have : j - (len - 4) = 2 := by omega
          rw [this]
          rfl
        · have h6 : j = len - 1 := by omega
          rw [if_neg (by omega), if_neg (by omega), if_neg (by omega), if_pos (by omega),
            if_neg h1]
          have : j - (len - 4) = 3 := by omega
          rw [this]
          rfl

/-- A non-final block whose copy passes the bound check is appended in
full. -/
theorem combineStep_append_nonfinal (n i : Nat) (st : DataFragment) (block : DataBlock)
    (hL : block.Length ≠ 0) (hi : i < n - 1)
    (hov : st.Stored + block.Length < st.Data.length)
    (hdl : block.Length ≤ block.Data.length) :
    combineStep n i st block = .ok { st with
      Data := listCopy st.Data st.Stored (block.Data.take block.Length)
      Stored := st.Stored + block.Length } := by
  unfold combineStep
  rw [if_neg hL, if_pos hi, if_pos hov, if_pos hdl]

/-- A final block whose copy passes the bound check is appended in full
and its last 4 bytes are read back as the fragment CRC-32. -/
theorem combineStep_append_final (n i : Nat) (st : DataFragment) (block : DataBlock)
    (hL : block.Length ≠ 0) (hi : ¬ i < n - 1)
    (hov : st.Stored + block.Length - 4 < st.Data.length)
    (hdl : block.Length ≤ block.Data.length) (h4 : 4 ≤ block.Length) :
    combineStep n i st block = .ok { st with
      Data := listCopy st.Data st.Stored (block.Data.take block.Length)
      Stored := st.Stored + block.Length
      CRC := trailerCRC block.Data block.Length } := by
  unfold combineStep
  rw [if_neg hL, if_neg hi]
  simp only [if_pos hov, if_pos hdl]
  rw [if_pos ⟨h4, hdl⟩]

/-- When two buffers agree (one of them zero-padded) on the region the
CRC-32 loops read, the reassembly loop and the fragmentation loop
compute the same value. -/
theorem crcLoops_agree (data1 p : List Nat) (stored bound : Nat) :
    ∀ i c, (bound - i) % 2 = 0 →
      (∀ j, i ≤ j → j < bound → data1.getD j 0 = paddedByte p stored j) →
      combineCrcLoop data1 c i bound = crc32loop p stored c i bound := by
  have H : ∀ fuel i c, bound - i ≤ 2 * fuel → (bound - i) % 2 = 0 →
      (∀ j, i ≤ j → j < bound → data1.getD j 0 = paddedByte p stored j) →
      combineCrcLoop data1 c i bound = crc32loop p stored c i bound := by
    intro fuel
    induction fuel with
    | zero =>
      intro i c hle _ _
      rw [combineCrcLoop_eq, crc32loop_eq, if_neg (by omega), if_neg (by omega)]
    | succ fuel ih =>
      intro i c hle hpar hbytes
      by_cases hi : i < bound
      · have hi1 : i + 1 < bound := by omega
        rw [combineCrcLoop_eq, crc32loop_eq, if_pos hi, if_pos hi,
          hbytes (i + 1) (by omega) hi1, hbytes i (by omega) hi]
        simp only [paddedByte]
        exact ih (i + 2) _ (by omega) (by omega) fun j hj hj2 => hbytes j (by omega) hj2
      · rw [combineCrcLoop_eq, crc32loop_eq, if_neg hi, if_neg hi]
  intro i c hpar hbytes
  exact H bound i c (by omega) hpar hbytes

/-- Main reassembly induction: feeding the blocks built by
`buildBlocksAux` into the combine loop (all bound checks pass because
the padded size stays at most 1503) appends every payload, ends with
`Stored` equal to the padded size, recovers the fragment CRC-32 from
the final trailer, and reproduces every byte of the padded region. -/
theorem combineLoop_buildBlocksAux
    (p : List Nat) (stored cap dataType crc needed : Nat)
    (hcap : 10 ≤ cap) (hsl : stored ≤ p.length)
    (hst4 : stored + 4 ≤ needed * cap) (hN : needed * cap ≤ 1503) (hcrc : crc < 2 ^ 32) :
    ∀ fuel i st, i + fuel = needed → 1 ≤ fuel →
      st.Data.length = 1500 → st.Stored = i * cap →
      (∀ j, j < 1500 → st.Data.getD j 0 = if j < i * cap then paddedByte p stored j else 0) →
      ∃ f, combineLoop needed i st
          (buildBlocksAux p stored cap dataType crc needed fuel i (min (i * cap) stored)) =
          .ok f ∧
        f.Stored = needed * cap ∧ f.CRC = crc ∧ f.Data.length = 1500 ∧
        (∀ j, j < needed * cap - 4 → f.Data.getD j 0 = paddedByte p stored j) := by
  intro fuel
  induction fuel with
  | zero => intro i st _ hf1 _ _ _; exact absurd hf1 (by decide)
  | succ fuel ih =>
    intro i st hif hf1 hlen hstored hbytes
    have hmul : (i + 1) * cap = i * cap + cap := by ring
    have hicap : i * cap + cap ≤ needed * cap := by
      calc i * cap + cap = (i + 1) * cap := hmul.symm
        _ ≤ needed * cap := Nat.mul_le_mul_right cap (by omega)
    have hbd0len : (mkBlockData p (min (i * cap) stored)
        (min cap (stored - min (i * cap) stored)) cap).length = cap :=
      mkBlockData_length p _ _ cap (by omega) (by omega)
    simp only [buildBlocksAux]
    by_cases hfin : i = needed - 1
    · -- the final block
      have hfuel0 : fuel = 0 := by omega
      subst hfuel0
      have hneedcap : needed * cap = i * cap + cap := by
        rw [show needed = i + 1 by omega, hmul]
      rw [if_pos hfin]
      have hbdlen : (finalizeBlockData (mkBlockData p (min (i * cap) stored)
          (min cap (stored - min (i * cap) stored)) cap) cap crc).length = cap := by
        rw [finalizeBlockData_length, hbd0len]
      have hstep := combineStep_append_final needed i st
        { Serial := i % 128,
          CRC := calculateCRC9 (i % 128) (finalizeBlockData (mkBlockData p (min (i * cap) stored)
            (min cap (stored - min (i * cap) stored)) cap) cap crc) dataType,
          OK := false,
          Data := finalizeBlockData (mkBlockData p (min (i * cap) stored)
            (min cap (stored - min (i * cap) stored)) cap) cap crc,
          Length := cap }
        (by show cap ≠ 0; omega) (by omega)
        (by show st.Stored + cap - 4 < st.Data.length; rw [hstored, hlen]; omega)
        (le_of_eq hbdlen.symm) (by show 4 ≤ cap; omega)
      refine ⟨{ st with
        Data := listCopy st.Data st.Stored ((finalizeBlockData (mkBlockData p
          (min (i * cap) stored) (min cap (stored - min (i * cap) stored)) cap) cap crc).take cap)
        Stored := st.Stored + cap
        CRC := trailerCRC (finalizeBlockData (mkBlockData p (min (i * cap) stored)
          (min cap (stored - min (i * cap) stored)) cap) cap crc) cap }, ?_, ?_, ?_, ?_, ?_⟩
      · simp only [combineLoop, buildBlocksAux]
        rw [hstep]
      · show st.Stored + cap = needed * cap
        rw [hstored]
        omega
      · show trailerCRC _ cap = crc
        unfold trailerCRC
        rw [finalizeBlockData_getD _ cap crc (cap - 4) hbd0len (by omega) (by omega),
          finalizeBlockData_getD _ cap crc (cap - 3) hbd0len (by omega) (by omega),
          finalizeBlockData_getD _ cap crc (cap - 2) hbd0len (by omega) (by omega),
          finalizeBlockData_getD _ cap crc (cap - 1) hbd0len (by omega) (by omega),
          if_neg (by omega), if_neg (by omega), if_neg (by omega), if_neg (by omega),
          show cap - 4 - (cap - 4) = 0 by omega, show cap - 3 - (cap - 4) = 1 by omega,
          show cap - 2 - (cap - 4) = 2 by omega, show cap - 1 - (cap - 4) = 3 by omega]
        exact lor_four_bytes crc hcrc
      · show (listCopy st.Data st.Stored _).length = 1500
        rw [listCopy_length, hlen]
      · intro j hj
        have hj1500 : j < 1500 := by omega
        show (listCopy st.Data st.Stored _).getD j 0 = paddedByte p stored j
        rw [listCopy_getD _ _ _ _ (by rw [hstored, hlen]; omega),
          List.take_of_length_le (le_of_eq hbdlen), hstored, hbdlen, hlen]
        by_cases h1 : j < i * cap
        · rw [if_pos h1, hbytes j hj1500, if_pos h1]
        · rw [if_neg h1, if_pos (by omega : j < i * cap + min cap (1500 - i * cap)),
            finalizeBlockData_getD _ cap crc (j - i * cap) hbd0len (by omega) (by omega),
            if_pos (by omega : j - i * cap < cap - 4),
            mkBlockData_getD p stored cap i (j - i * cap) hsl (by omega)]
          congr 1
          omega
    · -- a non-final block
      have hi : i < needed - 1 := by omega
      have hicap2 : i * cap + cap + cap ≤ needed * cap := by
        calc i * cap + cap + cap = (i + 2) * cap := by ring
          _ ≤ needed * cap := Nat.mul_le_mul_right cap (by omega)
      rw [if_neg hfin]
      have hstep := combineStep_append_nonfinal needed i st
        { Serial := i % 128,
          CRC := calculateCRC9 (i % 128) (mkBlockData p (min (i * cap) stored)
            (min cap (stored - min (i * cap) stored)) cap) dataType,
          OK := false,
          Data := mkBlockData p (min (i * cap) stored)
            (min cap (stored - min (i * cap) stored)) cap,
          Length := cap }
        (by show cap ≠ 0; omega) hi
        (by show st.Stored + cap < st.Data.length; rw [hstored, hlen]; omega)
        (le_of_eq hbd0len.symm)
      have hsa' : min (i * cap) stored + min cap (stored - min (i * cap) stored) =
          min ((i + 1) * cap) stored := by
        rw [hmul]
        omega
      have hre := ih (i + 1)
        { st with
          Data := listCopy st.Data st.Stored ((mkBlockData p (min (i * cap) stored)
            (min cap (stored - min (i * cap) stored)) cap).take cap)
          Stored := st.Stored + cap }
        (by omega) (by omega)
        (by show (listCopy _ _ _).length = 1500; rw [listCopy_length, hlen])
        (by show st.Stored + cap = (i + 1) * cap; rw [hstored, hmul])
        (by
          intro j hj
          show (listCopy st.Data st.Stored _).getD j 0 =
            if j < (i + 1) * cap then paddedByte p stored j else 0
          rw [listCopy_getD _ _ _ _ (by rw [hstored, hlen]; omega),
            List.take_of_length_le (le_of_eq hbd0len), hstored, hbd0len, hlen,
            show min cap (1500 - i * cap) = cap by omega]
          by_cases h1 : j < i * cap
          · rw [if_pos h1, hbytes j hj, if_pos h1, if_pos (by omega)]
          · rw [if_neg h1]
            by_cases h2 : j < i * cap + cap
            · rw [if_pos h2, if_pos (by omega),
                mkBlockData_getD p stored cap i (j - i * cap) hsl (by omega)]
              congr 1
              omega
            · rw [if_neg h2, hbytes j hj, if_neg (by omega), if_neg (by omega)])
      obtain ⟨f, hfeq, hfst, hfcrc, hflen, hfbytes⟩ := hre
      refine ⟨f, ?_, hfst, hfcrc, hflen, hfbytes⟩
      simp only [combineLoop]
      rw [hstep, hsa']
      exact hfeq

/-- Core of the round trip: reassembling the blocks built from payload
`p` (capacity at least 10 and even, padded size at most 1503) succeeds
and returns a fragment whose first `p.length` bytes are `p` and whose
`Stored` is the padded size. -/
theorem combine_roundtrip_core (p : List Nat) (cap dataType : Nat)
    (hcap10 : 10 ≤ cap) (hcap2 : cap % 2 = 0)
    (hfit : neededBlocks p.length cap * cap ≤ 1503) :
    ∃ f, CombineDataBlocks
        (buildBlocks p p.length cap dataType
          (crc32end (crc32loop p p.length 0 0 (neededBlocks p.length cap * cap - 4)))
          (neededBlocks p.length cap) 0 0) = .ok f ∧
      f.Data.take p.length = p ∧
      f.Stored = neededBlocks p.length cap * cap := by
  set needed := neededBlocks p.length cap with hneed
  set crc := crc32end (crc32loop p p.length 0 0 (needed * cap - 4)) with hcrcdef
  have hst4 : p.length + 4 ≤ needed * cap := neededBlocks_ge p.length cap (by omega)
  have hneedpos : 1 ≤ needed := by
    rcases Nat.eq_zero_or_pos needed with h | h
    · rw [h, Nat.zero_mul] at hst4
      omega
    · exact h
  have hcrclt : crc < 2 ^ 32 := crc32end_lt _
  obtain ⟨f, hloop, hfst, hfcrc, hflen, hfbytes⟩ :=
    combineLoop_buildBlocksAux p p.length cap dataType crc needed hcap10 le_rfl hst4 hfit
      hcrclt needed 0 { Data := List.replicate 1500 0, Stored := 0, Needed := 0, CRC := 0 }
      (by omega) hneedpos
      (by rw [List.length_replicate])
      (by rw [Nat.zero_mul])
      (by
        intro j hj
        rw [Nat.zero_mul,
          List.getD_eq_getElem _ _ (by rw [List.length_replicate]; omega),
          List.getElem_replicate, if_neg (by omega)])
  rw [show min (0 * cap) p.length = 0 by simp] at hloop
  refine ⟨f, ?_, ?_, hfst⟩
  · unfold CombineDataBlocks buildBlocks
    rw [Nat.sub_zero,
      if_neg (by rw [buildBlocksAux_length p p.length cap dataType crc needed]; omega),
      buildBlocksAux_length p p.length cap dataType crc needed,
      show (MaxPacketFragmentSize : Nat) = 1500 from rfl, hloop]
    show (if crc32end (combineCrcLoop f.Data 0 0 (f.Stored - 4)) ≠ f.CRC then
        Except.error (DmrError.fragmentCRC
          (crc32end (combineCrcLoop f.Data 0 0 (f.Stored - 4))) f.CRC)
      else Except.ok f) = Except.ok f
    rw [hfst, hfcrc]
    have hparN : (needed * cap - 4 - 0) % 2 = 0 := by
      have hm := Nat.mul_mod needed cap 2
      rw [hcap2, Nat.mul_zero, Nat.zero_mod] at hm
      omega
    rw [crcLoops_agree f.Data p p.length (needed * cap - 4) 0 0 hparN
      (fun j _ hj => hfbytes j hj)]
    rw [if_neg (fun h => h rfl)]
  · apply List.ext_getElem
    · rw [List.length_take, hflen]
      omega
    · intro n h1 h2
      rw [List.getElem_take]
      have hb := hfbytes n (by omega)
      rw [paddedByte, if_pos h2, List.getD_eq_getElem _ _ (by rw [hflen]; omega),
        List.getD_eq_getElem _ _ h2] at hb
      exact hb

/-- C1 (counterexample): fragmenting the 1-byte payload `[1]` at rate
1/2 unconfirmed and recombining succeeds, but the returned fragment has
`Stored = 12` (the padded block size), not the payload length 1. -/
theorem roundTrip_stored_not_payload_length :
    (match DataFragment.DataBlocks { Data := [1], Stored := 0, Needed := 0, CRC := 0 }
        Rate12Data false with
      | .ok (_, blocks) => (CombineDataBlocks blocks).toOption.map (fun f => f.Stored)
      | .error _ => none) = some 12 ∧ 12 ≠ ([1] : List Nat).length := by
  constructor
  · decide
  · decide

/-- C1 (amended): for every payload of at most 1500 bytes, every known
rate type and confirmed flag, if the fragment's CRC field is 0 on entry
and the padded size `Needed * blockCap` is at most 1503 (beyond that
the combine-side bound check drops blocks), then `CombineDataBlocks`
applied to the blocks of `DataBlocks` succeeds and yields a fragment
whose first `len(p)` bytes equal the payload; the fragment's `Stored`
is the padded size `Needed * blockCap` (payload plus zero padding plus
CRC-32 trailer), not the payload length. -/
theorem dataBlocks_combine_roundTrip (df : DataFragment) (dataType : Nat) (c : Bool)
    (hdt : dataType = Rate12Data ∨ dataType = Rate34Data ∨ dataType = Data)
    (hcrc0 : df.CRC = 0)
    (hlen : df.Data.length ≤ 1500)
    (hfit : neededBlocks df.Data.length (userDataLength dataType c) *
        userDataLength dataType c ≤ 1503) :
    ∃ df' blocks f,
      df.DataBlocks dataType c = .ok (df', blocks) ∧
      CombineDataBlocks blocks = .ok f ∧
      f.Data.take df.Data.length = df.Data ∧
      f.Stored = df'.Needed * userDataLength dataType c := by
  obtain ⟨hcap10, hcap2⟩ := userDataLength_known dataType c hdt
  have hne : userDataLength dataType c ≠ 0 := by omega
  have hmin : min df.Data.length MaxPacketFragmentSize = df.Data.length :=
    Nat.min_eq_left hlen
  unfold DataFragment.DataBlocks
  rw [if_neg hne, hmin, hcrc0]
  obtain ⟨f, hcomb, htake, hstored⟩ :=
    combine_roundtrip_core df.Data (userDataLength dataType c) dataType hcap10 hcap2 hfit
  exact ⟨_, _, f, rfl, hcomb, htake, hstored⟩

/-- C1 witness: the amended round trip at the 3-byte payload
`[1, 2, 3]`, rate 3/4 unconfirmed. -/
theorem dataBlocks_combine_roundTrip_witness :
    ∃ df' blocks f,
      DataFragment.DataBlocks { Data := [1, 2, 3], Stored := 0, Needed := 0, CRC := 0 }
        Rate34Data false = .ok (df', blocks) ∧
      CombineDataBlocks blocks = .ok f ∧
      f.Data.take ([1, 2, 3] : List Nat).length = [1, 2, 3] ∧
      f.Stored = df'.Needed * userDataLength Rate34Data false :=
  dataBlocks_combine_roundTrip { Data := [1, 2, 3], Stored := 0, Needed := 0, CRC := 0 }
    Rate34Data false (Or.inr (Or.inl rfl)) rfl (by decide) (by decide)

end DMR